import Mathlib

/-!
Verification development for a minimal image-gallery web application.

The backend (an Express server) stores image binaries in an external media
host (Cloudinary) and image metadata in a document database (MongoDB via
Mongoose).  The frontend is a React gallery component.  This file gives a
shallow embedding of the data model and of the request handlers the
specification talks about, and proves the specified properties.

Conventions of the embedding:
- The Metadata Store is a list of records, in insertion order.
- Request handlers are pure functions from the store (plus request data and
  oracles for the external services) to a response together with the
  resulting store, mirroring the JavaScript handlers statement by statement.
- JavaScript strings are modelled as `String`; the character-level
  operations the server uses (`split`, `toLowerCase`, `path.extname`, regex
  test) are implemented over `List Char` by structural recursion so that
  they evaluate inside the kernel.
-/

namespace Gallery

/-! ## Character-level string operations used by the server -/

/-- ASCII lower-casing of one character, the behaviour of JavaScript
`toLowerCase` on the ASCII range (the only range the filter compares
against). -/
def lowerChar (c : Char) : Char :=
  if 'A' ≤ c ∧ c ≤ 'Z' then Char.ofNat (c.toNat + 32) else c

/-- Auxiliary worker for `splitOnChar`: `acc` holds the current chunk,
reversed. -/
def splitOnCharAux (sep : Char) : List Char → List Char → List (List Char)
  | [], acc => [acc.reverse]
  | c :: rest, acc =>
    if c = sep then acc.reverse :: splitOnCharAux sep rest []
    else splitOnCharAux sep rest (c :: acc)

/-- JavaScript `s.split(sep)` for a one-character separator: the list of
chunks between occurrences of `sep`; on the empty string it yields one empty
chunk, as in JavaScript. -/
def splitOnChar (sep : Char) (cs : List Char) : List (List Char) :=
  splitOnCharAux sep cs []

/-- Does `pat` occur as a contiguous subsequence of `cs`?  This is the
semantics of the JavaScript regular-expression test
`/jpeg|jpg|png|gif|webp/.test(s)`: an unanchored substring search. -/
def containsSeq (pat : List Char) : List Char → Bool
  | [] => pat.isPrefixOf []
  | c :: rest => pat.isPrefixOf (c :: rest) || containsSeq pat rest

/-- Node `path.extname`: the extension of the last path segment, from its
last dot (inclusive); empty when the segment has no dot or only a leading
dot. -/
def extname (p : List Char) : List Char :=
  let base := (splitOnChar '/' p).getLastD []
  match base.reverse.findIdx? (fun c => c = '.') with
  | none => []
  | some i =>
    let j := base.length - 1 - i
    if j = 0 then [] else base.drop j

/-! ## Data model -/

/-- An image record as persisted by the Mongoose `imageSchema`: `path`
stores the media-host URL and `public_id` the media-host deletion handle
(absent on legacy records).  `uploadDate` is a timestamp, modelled as a
natural number. -/
structure ImageRecord where
  _id : String
  filename : String
  originalName : String
  mimetype : String
  size : Nat
  path : String
  public_id : Option String
  uploadDate : Nat
deriving Repr, DecidableEq

/-- The Metadata Store: the collection of image records, in insertion
order. -/
abbrev MetadataStore := List ImageRecord

/-- A record as returned by the list endpoint: the spread of the stored
record plus the added `url` field. -/
structure AnnotatedImage where
  record : ImageRecord
  url : String
deriving Repr, DecidableEq

/-- The JSON bodies the server produces. -/
inductive RespBody where
  | err (msg : String)
  | ok (msg : String)
  | uploadOk (msg : String) (images : List ImageRecord)
  | listing (images : List AnnotatedImage)
  | redirectTo (location : String)
deriving Repr, DecidableEq

/-- An HTTP response: status code and body.  A redirect is a 302 with the
target location as body. -/
structure HttpResult where
  status : Nat
  body : RespBody
deriving Repr, DecidableEq

/-! ## Database primitives -/

/-- Mongoose `Image.findById`: the record whose `_id` matches, if any. -/
def findById (s : MetadataStore) (id : String) : Option ImageRecord :=
  s.find? (fun r => r._id == id)

/-- Mongoose `Image.findByIdAndDelete`: remove the record whose `_id`
matches (`_id` is a unique key, so at most one record matches). -/
def removeById (s : MetadataStore) (id : String) : MetadataStore :=
  s.eraseP (fun r => r._id == id)

/-- Mongoose `Image.find().sort(uploadDate: -1)`: all records, ordered by
`uploadDate` descending. -/
def sortByDateDesc (s : MetadataStore) : List ImageRecord :=
  s.mergeSort (fun a b => decide (b.uploadDate ≤ a.uploadDate))

/-! ## GET /api/images -/

/-- The list endpoint: fetch all records sorted by `uploadDate` descending,
annotate each with `url := path`, respond 200.  The handler does not mutate
the store. -/
def getImages (s : MetadataStore) : HttpResult × MetadataStore :=
  let images := sortByDateDesc s
  let imagesWithUrl := images.map (fun image => AnnotatedImage.mk image image.path)
  (⟨200, RespBody.listing imagesWithUrl⟩, s)

/-! ## GET /api/download/:id -/

/-- The download endpoint: on a match redirect (302) to the stored `path`,
otherwise 404 with an explicit not-found body. -/
def downloadById (s : MetadataStore) (id : String) : HttpResult × MetadataStore :=
  match findById s id with
  | none => (⟨404, RespBody.err "Image not found"⟩, s)
  | some image => (⟨302, RespBody.redirectTo image.path⟩, s)

/-! ## DELETE /api/images/:id -/

/-- JavaScript truthiness of a string: nonempty. -/
def jsTruthyStr (s : String) : Bool := !(s == "")

/-- JavaScript truthiness of a possibly-unset string variable: set and
nonempty. -/
def jsTruthyOpt : Option String → Bool
  | none => false
  | some s => jsTruthyStr s

/-- The legacy fallback of the delete handler: split the URL on slashes,
take the last part, and keep what precedes its first dot
(`publicIdWithExtension.split(dot)[0]`). -/
def fallbackPublicId (path : String) : String :=
  let urlParts := splitOnChar '/' path.data
  let publicIdWithExtension := urlParts.getLastD []
  String.mk ((splitOnChar '.' publicIdWithExtension).headD [])

/-- The `publicId` variable of the delete handler after the fallback step:
the stored `public_id` when truthy; else, when `path` is truthy, the value
derived from the URL; else the original (falsy) value. -/
def deletePublicId (image : ImageRecord) : Option String :=
  let publicId := image.public_id
  if !(jsTruthyOpt publicId) && jsTruthyStr image.path then
    some (fallbackPublicId image.path)
  else publicId

/-- Everything observable about one run of the delete handler: the HTTP
response, the resulting store, the handle passed to
`cloudinary.uploader.destroy` (if the call was made), and whether the
remote deletion succeeded. -/
structure DeleteOutcome where
  response : HttpResult
  store : MetadataStore
  destroyCalled : Option String
  remoteDeleted : Bool
deriving Repr, DecidableEq

/-- The delete endpoint.  `mediaOk` is the oracle for whether the media
host accepts the destroy call; a failure there is caught and logged, and
the handler proceeds to delete the metadata record and answer 200
regardless. -/
def deleteById (s : MetadataStore) (id : String) (mediaOk : Bool) : DeleteOutcome :=
  match findById s id with
  | none => ⟨⟨404, RespBody.err "Image not found"⟩, s, none, false⟩
  | some image =>
    let publicId := deletePublicId image
    let call := if jsTruthyOpt publicId then publicId else none
    ⟨⟨200, RespBody.ok "Image deleted successfully"⟩, removeById s id,
      call, call.isSome && mediaOk⟩

/-! ## POST /api/upload -/

/-- An incoming multipart file as multer presents it to the filter:
client-supplied original name, client-declared MIME type, and byte size. -/
structure UploadFile where
  originalname : String
  mimetype : String
  size : Nat
deriving Repr, DecidableEq

/-- The five tokens of the upload filter regular expression. -/
def allowedTokens : List (List Char) :=
  ["jpeg".data, "jpg".data, "png".data, "gif".data, "webp".data]

/-- `/jpeg|jpg|png|gif|webp/.test(s)`: some alternative occurs in `s` as a
substring (the regular expression is unanchored). -/
def regexTest (s : List Char) : Bool :=
  allowedTokens.any (fun t => containsSeq t s)

/-- The multer `fileFilter`: test the regular expression against the
lower-cased `path.extname(originalname)` and against the declared MIME
type; accept only when both tests pass. -/
def fileFilterAccepts (file : UploadFile) : Bool :=
  let extOk := regexTest ((extname file.originalname.data).map lowerChar)
  let mimeOk := regexTest file.mimetype.data
  extOk && mimeOk

/-- The configured multer size limit: 10 * 1024 * 1024 bytes. -/
def fileSizeLimit : Nat := 10 * 1024 * 1024

/-- What the Cloudinary storage engine attaches to an accepted file:
storage-assigned name, deletion handle, and retrievable URL. -/
structure StoredFile where
  filename : String
  public_id : String
  path : String
deriving Repr, DecidableEq

/-- Errors that reach the fallback error middleware: multer errors carry a
code (for example LIMIT_FILE_SIZE), generic errors only a message. -/
inductive AppError where
  | multerErr (code : String) (message : String)
  | genericErr (message : String)
deriving Repr, DecidableEq

/-- The message carried by an error. -/
def AppError.message : AppError → String
  | AppError.multerErr _ m => m
  | AppError.genericErr m => m

/-- The fallback error middleware: a multer LIMIT_FILE_SIZE error becomes
400 with body "File too large"; every other error becomes 500 carrying the
error message. -/
def errorMiddleware (error : AppError) : HttpResult :=
  match error with
  | AppError.multerErr code _ =>
    if code == "LIMIT_FILE_SIZE" then ⟨400, RespBody.err "File too large"⟩
    else ⟨500, RespBody.err error.message⟩
  | AppError.genericErr _ => ⟨500, RespBody.err error.message⟩

/-- Multer processing of the file batch (modelling the documented multer
contract for `upload.array(images, 10)` with the configured filter, storage
and limits): files are handled in order; a file past the count limit raises
a multer LIMIT_FILE_COUNT error, a file rejected by the filter raises the
filter error, a file over the size limit raises a multer LIMIT_FILE_SIZE
error; the first error aborts the batch and skips the media host for the
remaining files.  `assign` is the oracle for what the media host returns
for the i-th accepted file.  On success, the accepted files paired with
their storage results are returned. -/
def processFilesAux (assign : Nat → UploadFile → StoredFile) :
    Nat → List UploadFile → Except AppError (List (UploadFile × StoredFile))
  | _, [] => Except.ok []
  | i, file :: rest =>
    if i ≥ 10 then
      Except.error (AppError.multerErr "LIMIT_FILE_COUNT" "Too many files")
    else if !(fileFilterAccepts file) then
      Except.error (AppError.genericErr "Only image files are allowed!")
    else if file.size > fileSizeLimit then
      Except.error (AppError.multerErr "LIMIT_FILE_SIZE" "File too large")
    else do
      let rest2 ← processFilesAux assign (i + 1) rest
      Except.ok ((file, assign i file) :: rest2)

/-- The oracles of an upload request: the media-host storage results, the
identifiers the document database assigns to new records, and the current
time (the default of `uploadDate`). -/
structure UploadEnv where
  assign : Nat → UploadFile → StoredFile
  freshId : Nat → String
  now : Nat

/-- One new record per accepted file: the handler copies the multer file
fields into a document and saves it. -/
def savedRecords (env : UploadEnv) (stored : List (UploadFile × StoredFile)) :
    List ImageRecord :=
  stored.enum.map (fun p =>
    { _id := env.freshId p.1
      filename := p.2.2.filename
      originalName := p.2.1.originalname
      mimetype := p.2.1.mimetype
      size := p.2.1.size
      path := p.2.2.path
      public_id := some p.2.2.public_id
      uploadDate := env.now })

/-- The upload endpoint: multer processes the batch; an error goes to the
error middleware and the route handler never runs (so the store is
untouched); on success the handler saves one record per file and responds
201 with the created records. -/
def uploadEndpoint (env : UploadEnv) (s : MetadataStore) (files : List UploadFile) :
    HttpResult × MetadataStore :=
  match processFilesAux env.assign 0 files with
  | Except.error e => (errorMiddleware e, s)
  | Except.ok stored =>
    let savedImages := savedRecords env stored
    (⟨201, RespBody.uploadOk "Images uploaded successfully" savedImages⟩,
      s ++ savedImages)

/-! ## Gallery Client -/

/-- An image as held in the client `images` state: the JSON shape the list
endpoint returns, with the fields the component reads. -/
structure ClientImage where
  _id : String
  originalName : String
  url : String
  size : Nat
  mimetype : String
  uploadDate : Nat
deriving Repr, DecidableEq

/-- The client state touched by `deleteImage`: the `images` array, the
`selectedImage` of the detail modal, and the error banner. -/
structure ClientState where
  images : List ClientImage
  selectedImage : Option ClientImage
  error : Option String
deriving Repr, DecidableEq

/-- The client `deleteImage(id)` handler.  `respOk` is whether the server
response was ok.  It first clears the error banner; on success it filters
the deleted id out of `images` and closes the modal if it showed that id;
on failure it sets the delete error banner and leaves `images` and the
modal alone. -/
def deleteImage (st : ClientState) (id : String) (respOk : Bool) : ClientState :=
  let st0 : ClientState := { st with error := none }
  if respOk then
    let imgs := st0.images.filter (fun img => !(img._id == id))
    let sel := match st0.selectedImage with
      | some selectedImage =>
        if selectedImage._id == id then none else some selectedImage
      | none => none
    { st0 with images := imgs, selectedImage := sel }
  else
    { st0 with error := some "Failed to delete image. Please try again." }

/-! ## Spec-side readings used to compare against the code -/

/-- The allowed set named by the specification. -/
def allowedSet : List String := ["jpeg", "jpg", "png", "gif", "webp"]

/-- The extension of a filename without its leading dot (the generous
reading of the claim about the lower-cased filename extension). -/
def extNoDot (p : String) : String :=
  match extname p.data with
  | [] => ""
  | _ :: t => String.mk t

/-- The reading of the type-check claim: the lower-cased extension and the
declared MIME type each belong to the allowed set. -/
def specTypeAllowed (file : UploadFile) : Bool :=
  allowedSet.contains (String.mk ((extNoDot file.originalname).data.map lowerChar))
    && allowedSet.contains file.mimetype

/-- The reading of the deletion-handle claim: the last slash-separated
segment of the path with its extension stripped, that is with the text from
its last dot removed. -/
def stripLastExtension (path : String) : String :=
  let seg := (splitOnChar '/' path.data).getLastD []
  match seg.reverse.findIdx? (fun c => c = '.') with
  | none => String.mk seg
  | some i => String.mk (seg.take (seg.length - 1 - i))

/-- A legacy record (created before `public_id` existed) whose stored
filename contains an inner dot. -/
def legacyRecord : ImageRecord :=
  { _id := "abc123"
    filename := "my.photo.jpg"
    originalName := "my.photo.jpg"
    mimetype := "image/jpeg"
    size := 1234
    path := "https://res.example.com/uploads/my.photo.jpg"
    public_id := none
    uploadDate := 5 }

/-! ## Concrete fixtures used to instantiate the theorems -/

/-- A stored record with a `public_id`. -/
def demoRec1 : ImageRecord :=
  { _id := "a1"
    filename := "171-42"
    originalName := "one.jpg"
    mimetype := "image/jpeg"
    size := 2048
    path := "https://res.example.com/uploads/171-42.jpg"
    public_id := some "171-42"
    uploadDate := 7 }

/-- A second stored record, older than the first. -/
def demoRec2 : ImageRecord :=
  { _id := "a2"
    filename := "171-43"
    originalName := "two.png"
    mimetype := "image/png"
    size := 4096
    path := "https://res.example.com/uploads/171-43.png"
    public_id := some "171-43"
    uploadDate := 3 }

/-- A two-record store. -/
def demoStore : MetadataStore := [demoRec1, demoRec2]

/-- Concrete oracles for an upload request. -/
def demoEnv : UploadEnv :=
  { assign := fun i _ =>
      ⟨"f" ++ toString i, "pid" ++ toString i, "https://res.example.com/uploads/f" ++ toString i⟩
    freshId := fun i => "new" ++ toString i
    now := 100 }

/-- An image file over the configured size limit. -/
def oversizedDemoFile : UploadFile := ⟨"big.jpg", "image/jpeg", 20000000⟩

/-- A file whose extension and MIME type merely contain an allowed token
as a substring without being one of the allowed types. -/
def spoofedFile : UploadFile := ⟨"a.fakejpg", "fakejpgtype", 1⟩

/-- A file the upload filter rejects. -/
def badTypeFile : UploadFile := ⟨"notes.txt", "text/plain", 1⟩

/-- A client-side image. -/
def demoClientImage1 : ClientImage :=
  ⟨"c1", "one.jpg", "https://res.example.com/uploads/171-42.jpg", 2048, "image/jpeg", 7⟩

/-- A second client-side image. -/
def demoClientImage2 : ClientImage :=
  ⟨"c2", "two.png", "https://res.example.com/uploads/171-43.png", 4096, "image/png", 3⟩

/-- A client state with the detail modal open on the first image. -/
def demoClientState : ClientState :=
  ⟨[demoClientImage1, demoClientImage2], some demoClientImage1, none⟩

/-! ## Helper lemmas -/

/-- `containsSeq` decides occurrence as a contiguous subsequence. -/
theorem containsSeq_iff_infix (pat : List Char) (cs : List Char) :
    containsSeq pat cs = true ↔ pat <:+: cs := by
  induction cs with
  | nil =>
    simp [containsSeq, List.isPrefixOf_iff_prefix, List.prefix_nil, List.infix_nil]
  | cons c rest ih =>
    simp [containsSeq, List.isPrefixOf_iff_prefix, ih, List.infix_cons_iff]

/-- The list endpoint returns a permutation of the store. -/
theorem sortByDateDesc_perm (s : MetadataStore) : (sortByDateDesc s).Perm s :=
  List.mergeSort_perm s _

/-- The list endpoint output is sorted by `uploadDate` descending. -/
theorem sortByDateDesc_sorted (s : MetadataStore) :
    (sortByDateDesc s).Pairwise (fun a b => b.uploadDate ≤ a.uploadDate) := by
  have h := List.sorted_mergeSort
    (fun (a b c : ImageRecord) hab hbc => by
      have h1 : b.uploadDate ≤ a.uploadDate := of_decide_eq_true hab
      have h2 : c.uploadDate ≤ b.uploadDate := of_decide_eq_true hbc
      exact decide_eq_true (Nat.le_trans h2 h1))
    (fun (a b : ImageRecord) => by
      by_cases hle : b.uploadDate ≤ a.uploadDate
      · simp [hle]
      · simp [Nat.le_of_not_le hle])
    s
  exact h.imp (fun hab => by simpa using hab)

/-- In a store with pairwise-distinct identifiers, no record left by
`removeById` carries the removed identifier, provided a record with that
identifier was found (or none existed in the first place). -/
theorem mem_removeById_ne (s : MetadataStore) (id : String)
    (hu : s.Pairwise (fun a b => a._id ≠ b._id)) :
    ∀ r ∈ removeById s id, r._id ≠ id := by
  induction s with
  | nil => intro r hr; simp [removeById] at hr
  | cons a t ih =>
    intro r hr
    unfold removeById at hr
    by_cases ha : (fun r : ImageRecord => r._id == id) a = true
    · rw [@List.eraseP_cons_of_pos ImageRecord a t (fun r => r._id == id) ha] at hr
      have haid : a._id = id := by simpa using ha
      intro hrid
      exact (List.pairwise_cons.mp hu).1 r hr (haid.trans hrid.symm)
    · rw [@List.eraseP_cons_of_neg ImageRecord a t (fun r => r._id == id) ha] at hr
      rcases List.mem_cons.mp hr with rfl | hr'
      · simpa using ha
      · exact ih (List.pairwise_cons.mp hu).2 r hr'

/-- When every file of a batch within the count limit passes the type
filter and some file exceeds the size limit, multer processing aborts with
the LIMIT_FILE_SIZE error. -/
theorem processFilesAux_oversize (assign : Nat → UploadFile → StoredFile) :
    ∀ (files : List UploadFile) (i : Nat),
      i + files.length ≤ 10 →
      (∀ f ∈ files, fileFilterAccepts f = true) →
      (∃ f ∈ files, fileSizeLimit < f.size) →
      processFilesAux assign i files =
        Except.error (AppError.multerErr "LIMIT_FILE_SIZE" "File too large") := by
  intro files
  induction files with
  | nil => intro i _ _ hex; simp at hex
  | cons file rest ih =>
    intro i hlen hacc hex
    have hi : ¬ (i ≥ 10) := by simp only [List.length_cons] at hlen; omega
    have hf : fileFilterAccepts file = true := hacc file (by simp)
    by_cases hs : fileSizeLimit < file.size
    · simp [processFilesAux, hi, hf, hs]
    · have hex' : ∃ f ∈ rest, fileSizeLimit < f.size := by
        rcases hex with ⟨f, hmem, hfs⟩
        rcases List.mem_cons.mp hmem with rfl | hmem'
        · exact absurd hfs hs
        · exact ⟨f, hmem', hfs⟩
      have hrec := ih (i + 1)
        (by simp only [List.length_cons] at hlen; omega)
        (fun f hf' => hacc f (List.mem_cons_of_mem _ hf')) hex'
      simp only [processFilesAux, hi, hf, hs, if_false, if_neg, Bool.not_true,
        Bool.false_eq_true, ite_false, hrec]
      rfl

/-- When the files before a filter-rejected file all pass the filter and
the size limit, multer processing aborts with the filter error. -/
theorem processFilesAux_reject (assign : Nat → UploadFile → StoredFile)
    (file : UploadFile) (hrej : fileFilterAccepts file = false) :
    ∀ (pre : List UploadFile) (rest : List UploadFile) (i : Nat),
      i + pre.length + 1 ≤ 10 →
      (∀ f ∈ pre, fileFilterAccepts f = true ∧ f.size ≤ fileSizeLimit) →
      processFilesAux assign i (pre ++ file :: rest) =
        Except.error (AppError.genericErr "Only image files are allowed!") := by
  intro pre
  induction pre with
  | nil =>
    intro rest i hlen _
    have hi : ¬ (i ≥ 10) := by omega
    simp [processFilesAux, hi, hrej]
  | cons g pre ih =>
    intro rest i hlen hacc
    have hi : ¬ (i ≥ 10) := by simp only [List.length_cons] at hlen; omega
    obtain ⟨hg, hgs⟩ := hacc g (by simp)
    have hsz : ¬ (fileSizeLimit < g.size) := by omega
    have hrec := ih rest (i + 1)
      (by simp only [List.length_cons] at hlen; omega)
      (fun f hf => hacc f (List.mem_cons_of_mem _ hf))
    have hrec' : processFilesAux assign (i + 1) (pre.append (file :: rest)) =
        Except.error (AppError.genericErr "Only image files are allowed!") := hrec
    simp only [List.cons_append, processFilesAux, hi, hg, hsz, if_false, if_neg,
      Bool.not_true, Bool.false_eq_true, ite_false, hrec, hrec']
    rfl

/-! ## Claims -/

/-- Claim C2: for every state of the Metadata Store, including the empty
one, the list endpoint responds 200 without mutating the store, and its
body is the complete list of stored records (a permutation of the store)
ordered by `uploadDate` descending, each annotated with a `url` field equal
to its stored `path`. -/
theorem getImages_contract (s : MetadataStore) :
    (getImages s).1.status = 200 ∧
    (getImages s).2 = s ∧
    ∃ l, (getImages s).1.body = RespBody.listing l ∧
      (l.map AnnotatedImage.record).Perm s ∧
      l.Pairwise (fun a b => b.record.uploadDate ≤ a.record.uploadDate) ∧
      l.map AnnotatedImage.url = l.map (fun a => a.record.path) := by
  refine ⟨rfl, rfl,
    (sortByDateDesc s).map (fun image => AnnotatedImage.mk image image.path),
    rfl, ?_, ?_, ?_⟩
  · have hcomp : (AnnotatedImage.record ∘ fun image : ImageRecord =>
        AnnotatedImage.mk image image.path) = id := rfl
    simpa [List.map_map, hcomp] using sortByDateDesc_perm s
  · exact List.pairwise_map.mpr (sortByDateDesc_sorted s)
  · simp [List.map_map, Function.comp]

/-- Claim C9: calling the list endpoint twice with no intervening mutation
returns identical ordered content; in particular the endpoint itself never
mutates the store. -/
theorem getImages_twice_idempotent (s : MetadataStore) :
    (getImages ((getImages s).2)).1 = (getImages s).1 ∧ (getImages s).2 = s :=
  ⟨rfl, rfl⟩

/-- Claim C10: an upload request whose accepted batch is empty succeeds:
201, the success message, an empty list of created records, and an
unchanged store. -/
theorem uploadEndpoint_emptyBatch (env : UploadEnv) (s : MetadataStore) :
    uploadEndpoint env s [] =
      (⟨201, RespBody.uploadOk "Images uploaded successfully" []⟩, s) := by
  simp [uploadEndpoint, processFilesAux, savedRecords]

/-- Claim C6: the download endpoint redirects to exactly the matched
record's `path`, and answers 404 with an explicit not-found body when no
record matches; the store is untouched either way. -/
theorem downloadById_contract (s : MetadataStore) (id : String) :
    (∀ image, findById s id = some image →
      downloadById s id = (⟨302, RespBody.redirectTo image.path⟩, s)) ∧
    (findById s id = none →
      downloadById s id = (⟨404, RespBody.err "Image not found"⟩, s)) := by
  constructor
  · intro image h
    simp [downloadById, h]
  · intro h
    simp [downloadById, h]

/-- Witness for C6 on a concrete store: a matching id redirects to that
record's path, an unknown id gives 404. -/
theorem downloadById_contract_witness :
    (findById demoStore "a1" = some demoRec1 ∧
      downloadById demoStore "a1" =
        (⟨302, RespBody.redirectTo demoRec1.path⟩, demoStore)) ∧
    (findById demoStore "zz" = none ∧
      downloadById demoStore "zz" =
        (⟨404, RespBody.err "Image not found"⟩, demoStore)) :=
  ⟨⟨by decide, (downloadById_contract demoStore "a1").1 demoRec1 (by decide)⟩,
   ⟨by decide, (downloadById_contract demoStore "zz").2 (by decide)⟩⟩

/-- Claim C7: a delete whose id matches no record returns 404, leaves the
store unchanged, and attempts no Media Store deletion. -/
theorem deleteById_notFound_contract (s : MetadataStore) (id : String)
    (mediaOk : Bool) (h : findById s id = none) :
    deleteById s id mediaOk =
      ⟨⟨404, RespBody.err "Image not found"⟩, s, none, false⟩ := by
  simp [deleteById, h]

/-- Witness for C7 on a concrete store and unknown id. -/
theorem deleteById_notFound_contract_witness :
    findById demoStore "zz" = none ∧
    deleteById demoStore "zz" true =
      ⟨⟨404, RespBody.err "Image not found"⟩, demoStore, none, false⟩ :=
  ⟨by decide, deleteById_notFound_contract demoStore "zz" true (by decide)⟩

/-- Claim C1: a delete whose id matches a stored record answers 200 with
the confirmation message and removes the record from the store, and
neither the response nor the store (nor even the handle passed to the
Media Store) depends on whether the Media Store deletion succeeds; with
unique identifiers the deleted id no longer occurs in the store. -/
theorem deleteById_found_contract (s : MetadataStore) (id : String)
    (image : ImageRecord) (mediaOk : Bool)
    (h : findById s id = some image) :
    (deleteById s id mediaOk).response =
      ⟨200, RespBody.ok "Image deleted successfully"⟩ ∧
    (deleteById s id mediaOk).store = removeById s id ∧
    (deleteById s id mediaOk).response = (deleteById s id true).response ∧
    (deleteById s id mediaOk).store = (deleteById s id true).store ∧
    (deleteById s id mediaOk).destroyCalled = (deleteById s id true).destroyCalled ∧
    (s.Pairwise (fun a b => a._id ≠ b._id) →
      ∀ r ∈ (deleteById s id mediaOk).store, r._id ≠ id) := by
  refine ⟨by simp [deleteById, h], by simp [deleteById, h], by simp [deleteById, h],
    by simp [deleteById, h], by simp [deleteById, h], ?_⟩
  intro hu r hr
  have hst : (deleteById s id mediaOk).store = removeById s id := by
    simp [deleteById, h]
  rw [hst] at hr
  exact mem_removeById_ne s id hu r hr

/-- Witness for C1 on a concrete store, with the Media Store failing. -/
theorem deleteById_found_contract_witness :
    findById demoStore "a1" = some demoRec1 ∧
    (deleteById demoStore "a1" false).response =
      ⟨200, RespBody.ok "Image deleted successfully"⟩ ∧
    (deleteById demoStore "a1" false).store = removeById demoStore "a1" ∧
    (deleteById demoStore "a1" false).response =
      (deleteById demoStore "a1" true).response ∧
    demoRec2._id ≠ "a1" :=
  ⟨by decide,
   (deleteById_found_contract demoStore "a1" demoRec1 false (by decide)).1,
   (deleteById_found_contract demoStore "a1" demoRec1 false (by decide)).2.1,
   (deleteById_found_contract demoStore "a1" demoRec1 false (by decide)).2.2.1,
   (deleteById_found_contract demoStore "a1" demoRec1 false
      (by decide)).2.2.2.2.2 (by decide) demoRec2 (by decide)⟩

/-- Claim C4: an upload batch within the count limit whose files all pass
the type filter and which contains a file over 10485760 bytes is answered
400 with body "File too large" and creates no record; and every error
other than a multer LIMIT_FILE_SIZE error is turned by the fallback
middleware into a 500 carrying that error's message text. -/
theorem uploadOversize_contract :
    (∀ (env : UploadEnv) (s : MetadataStore) (files : List UploadFile),
      files.length ≤ 10 →
      (∀ f ∈ files, fileFilterAccepts f = true) →
      (∃ f ∈ files, fileSizeLimit < f.size) →
      uploadEndpoint env s files = (⟨400, RespBody.err "File too large"⟩, s)) ∧
    (∀ e : AppError, (∀ m, e ≠ AppError.multerErr "LIMIT_FILE_SIZE" m) →
      errorMiddleware e = ⟨500, RespBody.err e.message⟩) := by
  constructor
  · intro env s files hlen hacc hex
    have hp := processFilesAux_oversize env.assign files 0 (by omega) hacc hex
    simp [uploadEndpoint, hp, errorMiddleware]
  · intro e he
    cases e with
    | multerErr code m =>
      have hcode : code ≠ "LIMIT_FILE_SIZE" := by
        intro hc
        exact he m (by rw [hc])
      have hbeq : (code == "LIMIT_FILE_SIZE") = false :=
        beq_eq_false_iff_ne.mpr hcode
      simp [errorMiddleware, AppError.message, hbeq]
    | genericErr m => simp [errorMiddleware, AppError.message]

/-- Witness for C4: a single oversized image file gives 400 on an empty
store, and a generic error gives 500 with its message. -/
theorem uploadOversize_contract_witness :
    (fileFilterAccepts oversizedDemoFile = true ∧
      fileSizeLimit < oversizedDemoFile.size ∧
      uploadEndpoint demoEnv [] [oversizedDemoFile] =
        (⟨400, RespBody.err "File too large"⟩, [])) ∧
    errorMiddleware (AppError.genericErr "boom") =
      ⟨500, RespBody.err "boom"⟩ :=
  ⟨⟨by decide, by decide,
    uploadOversize_contract.1 demoEnv [] [oversizedDemoFile] (by decide)
      (by decide) (by decide)⟩,
   uploadOversize_contract.2 (AppError.genericErr "boom")
     (fun m hm => by cases hm)⟩

/-- Claim C3 counterexample: `a.fakejpg` with MIME `fakejpgtype` is
accepted by the filter although neither its lower-cased extension (with or
without the dot) nor its MIME type belongs to the allowed set — the filter
regular expression performs an unanchored substring test, not a membership
test. -/
theorem fileFilter_claim_counterexample :
    fileFilterAccepts spoofedFile = true ∧
    specTypeAllowed spoofedFile = false ∧
    allowedSet.contains
      (String.mk ((extname spoofedFile.originalname.data).map lowerChar)) = false ∧
    allowedSet.contains spoofedFile.mimetype = false := by
  decide

/-- Claim C3 amended: a file is accepted by the filter exactly when some
allowed token occurs as a substring of its lower-cased extension and some
allowed token occurs as a substring of its declared MIME type; a rejected
file aborts the batch with the error "Only image files are allowed!"
(surfaced as a 500 by the middleware) before any record is created, the
store being left unchanged. -/
theorem fileFilter_amended (file : UploadFile) :
    (fileFilterAccepts file = true ↔
      ((∃ t ∈ allowedTokens, t <:+: (extname file.originalname.data).map lowerChar) ∧
       (∃ t ∈ allowedTokens, t <:+: file.mimetype.data))) ∧
    (∀ (env : UploadEnv) (s : MetadataStore) (pre rest : List UploadFile),
      pre.length + 1 ≤ 10 →
      (∀ f ∈ pre, fileFilterAccepts f = true ∧ f.size ≤ fileSizeLimit) →
      fileFilterAccepts file = false →
      uploadEndpoint env s (pre ++ file :: rest) =
        (⟨500, RespBody.err "Only image files are allowed!"⟩, s)) := by
  constructor
  · simp [fileFilterAccepts, regexTest, Bool.and_eq_true, List.any_eq_true,
      containsSeq_iff_infix]
  · intro env s pre rest hlen hacc hrej
    have hp := processFilesAux_reject env.assign file hrej pre rest 0 (by omega) hacc
    simp [uploadEndpoint, hp, errorMiddleware, AppError.message]

/-- Witness for the amended C3: a text file is rejected and the request
fails with the filter error, leaving the store unchanged. -/
theorem fileFilter_amended_witness :
    fileFilterAccepts badTypeFile = false ∧
    uploadEndpoint demoEnv demoStore ([] ++ badTypeFile :: []) =
      (⟨500, RespBody.err "Only image files are allowed!"⟩, demoStore) :=
  ⟨by decide,
   (fileFilter_amended badTypeFile).2 demoEnv demoStore [] [] (by decide)
     (by simp) (by decide)⟩

/-- Claim C5 counterexample: for a legacy record whose URL's last segment
carries an inner dot, the code cuts the segment at its first dot, which
differs from stripping the extension. -/
theorem deleteHandle_claim_counterexample :
    legacyRecord.public_id = none ∧
    (deleteById [legacyRecord] "abc123" true).destroyCalled = some "my" ∧
    stripLastExtension legacyRecord.path = "my.photo" ∧
    ("my" : String) ≠ "my.photo" := by
  decide

/-- Claim C5 amended: on a match, the deletion handle sent to the Media
Store is the stored `public_id` when that field is present and nonempty;
when it is absent (or empty) and `path` is nonempty, the handle is the
last slash-separated segment of `path` truncated before its first dot,
provided that truncation is nonempty (otherwise no Media Store deletion is
attempted). -/
theorem deleteHandle_amended (s : MetadataStore) (id : String)
    (image : ImageRecord) (mediaOk : Bool)
    (h : findById s id = some image) :
    (∀ p, image.public_id = some p → p ≠ "" →
      (deleteById s id mediaOk).destroyCalled = some p) ∧
    ((image.public_id = none ∨ image.public_id = some "") →
      image.path ≠ "" → fallbackPublicId image.path ≠ "" →
      (deleteById s id mediaOk).destroyCalled =
        some (fallbackPublicId image.path)) := by
  constructor
  · intro p hp hne
    have hpt : jsTruthyOpt (some p) = true := by
      simp [jsTruthyOpt, jsTruthyStr, hne]
    simp [deleteById, h, deletePublicId, hp, hpt]
  · intro hfal hpath hfb
    have hft : jsTruthyOpt image.public_id = false := by
      rcases hfal with h0 | h0 <;> simp [jsTruthyOpt, jsTruthyStr, h0]
    have hps : jsTruthyStr image.path = true := by
      simp [jsTruthyStr, hpath]
    have hfbt : jsTruthyOpt (some (fallbackPublicId image.path)) = true := by
      simp [jsTruthyOpt, jsTruthyStr, hfb]
    simp [deleteById, h, deletePublicId, hft, hps, hfbt]

/-- Witness for the amended C5: a record with a `public_id` uses it, a
legacy record falls back to the URL-derived handle. -/
theorem deleteHandle_amended_witness :
    (findById demoStore "a1" = some demoRec1 ∧
      demoRec1.public_id = some "171-42" ∧
      (deleteById demoStore "a1" true).destroyCalled = some "171-42") ∧
    (findById [legacyRecord] "abc123" = some legacyRecord ∧
      legacyRecord.public_id = none ∧
      (deleteById [legacyRecord] "abc123" true).destroyCalled =
        some (fallbackPublicId legacyRecord.path)) :=
  ⟨⟨by decide, by decide,
    (deleteHandle_amended demoStore "a1" demoRec1 true (by decide)).1 "171-42"
      (by decide) (by decide)⟩,
   ⟨by decide, by decide,
    (deleteHandle_amended [legacyRecord] "abc123" legacyRecord true
        (by decide)).2 (Or.inl (by decide)) (by decide) (by decide)⟩⟩

/-- Claim C8: on a successful server response, the client delete handler
retains exactly the images whose `_id` differs from the deleted id, closes
the detail modal when it referenced the deleted id, and leaves it alone
otherwise. -/
theorem deleteImage_success_contract (st : ClientState) (id : String) :
    (∀ img, img ∈ (deleteImage st id true).images ↔
      (img ∈ st.images ∧ img._id ≠ id)) ∧
    (∀ sel, st.selectedImage = some sel → sel._id = id →
      (deleteImage st id true).selectedImage = none) ∧
    (∀ sel, st.selectedImage = some sel → sel._id ≠ id →
      (deleteImage st id true).selectedImage = some sel) ∧
    (st.selectedImage = none → (deleteImage st id true).selectedImage = none) := by
  refine ⟨?_, ?_, ?_, ?_⟩
  · intro img
    simp [deleteImage, List.mem_filter]
  · intro sel hsel hid
    simp [deleteImage, hsel, hid]
  · intro sel hsel hid
    have hbeq : (sel._id == id) = false := beq_eq_false_iff_ne.mpr hid
    simp [deleteImage, hsel, hbeq]
  · intro hsel
    simp [deleteImage, hsel]

/-- Witness for C8: deleting the image shown in the modal removes it from
the list and closes the modal. -/
theorem deleteImage_success_contract_witness :
    (demoClientImage1 ∈ (deleteImage demoClientState "c1" true).images ↔
      (demoClientImage1 ∈ demoClientState.images ∧
        demoClientImage1._id ≠ "c1")) ∧
    demoClientState.selectedImage = some demoClientImage1 ∧
    (deleteImage demoClientState "c1" true).selectedImage = none :=
  ⟨(deleteImage_success_contract demoClientState "c1").1 demoClientImage1,
   rfl,
   (deleteImage_success_contract demoClientState "c1").2.1 demoClientImage1
     rfl rfl⟩

end Gallery
